import Mathlib

/-
Shallow embedding of `integrity_checker.py` from kaalpanikh/file-integrity-checker.

The program has three layers:
  * a hasher (`calculate_file_hash`, lines 12-18): streams a file through
    SHA-256 in 4096-byte chunks and returns the hex digest;
  * a snapshot store (`load_stored_hashes` lines 20-25, `save_hashes`
    lines 27-30): a YAML document `.file_hashes.yml` in the working
    directory holding a path-string to digest mapping;
  * three CLI commands (`init` lines 37-52, `check` lines 54-79,
    `update` lines 81-93).

Modelling choices:
  * File contents are byte lists.  The SHA-256 primitive comes from the
    external `hashlib` library, not from this repository, so it is kept
    abstract as a `DigestAlg` (a streaming state, an update step fed one
    chunk at a time, and a hex rendering of the final state); the chunked
    feeding loop of `calculate_file_hash` is modelled concretely.
  * The filesystem is an association list from path strings to
    `Option Bytes` for regular files (`none` models a file that exists
    but raises an I/O error when opened or read, e.g. permission denied;
    a path absent from the list is not a regular file), plus a list of
    directory paths.  `Path.rglob` filtered by `is_file` is modelled by
    `FS.filesUnder`: the regular files whose path extends the directory
    path, in filesystem enumeration order.
  * The persisted store is a `StoreDoc`: absent (no `.file_hashes.yml`),
    present but empty (`yaml.safe_load` returns `None`, and `or {}` turns
    it into an empty dict), a well-formed mapping, or malformed (the YAML
    parser raises).
  * Python exceptions are modelled by `Except Err`.  A command that
    returns `Except.ok` exits with status 0; `Except.error` is an
    unhandled exception propagating out of the command (non-zero exit,
    and in particular no store write that would have happened later).
  * `click.echo` output that the claims mention is returned as a list of
    message strings (for `init`/`update`) or as per-file statuses (for
    `check`).
-/

namespace IntegrityChecker

/-- Byte string of a file: a list of byte values. -/
abbrev Bytes := List Nat

/-- Chunking performed by `calculate_file_hash` (line 16): repeated
`f.read(4096)` until the read comes back empty splits the file content
into successive blocks of 4096 bytes (the last one possibly shorter). -/
def chunkBytes (l : Bytes) : List Bytes :=
  match l with
  | [] => []
  | b :: rest => ((b :: rest).take 4096) :: chunkBytes (rest.drop 4095)
termination_by l.length
decreasing_by simp [List.length_drop]; omega

/-- Abstract interface of the streaming digest supplied by the external
`hashlib` library (line 14 `hashlib.sha256()`, line 17 `.update(...)`,
line 18 `.hexdigest()`): an internal state, the fresh state, the update
step absorbing one chunk, and the hex rendering of the final state.
SHA-256 is one instance; the repository code relies only on this
interface. -/
structure DigestAlg where
  St : Type
  initState : St
  updState : St → Bytes → St
  hexdigest : St → String

/-- Digest of a byte string: feed the 4096-byte chunks into a fresh
digest state in order and render the result (lines 14-18). -/
def hashBytes (A : DigestAlg) (b : Bytes) : String :=
  A.hexdigest (List.foldl A.updState A.initState (chunkBytes b))

/-- Filesystem model: regular files as an association list from path
string to `Option Bytes` (`some b` readable with content `b`, `none`
present but unreadable), and the list of directory paths. -/
structure FS where
  files : List (String × Option Bytes)
  dirs : List String

/-- Path test `Path(p).is_file()`: `p` is a regular file. -/
def FS.isFile (fs : FS) (p : String) : Bool :=
  (fs.files.lookup p).isSome

/-- Path test `Path(p).is_dir()`: `p` is a directory. -/
def FS.isDir (fs : FS) (p : String) : Bool :=
  fs.dirs.contains p

/-- Reading a regular file: `some` content when the path is a readable
regular file, `none` when opening or reading raises an I/O error
(missing path, directory, or unreadable file). -/
def FS.readFile (fs : FS) (p : String) : Option Bytes :=
  match fs.files.lookup p with
  | some c => c
  | none => none

/-- Character-list prefix test, `charsBeginWith pre s` holding when `s`
begins with `pre`. -/
def charsBeginWith : List Char → List Char → Bool
  | [], _ => true
  | _ :: _, [] => false
  | c :: cs, d :: ds => c == d && charsBeginWith cs ds

/-- String prefix test: `strBeginsWith s pre` holds when `s` begins with
`pre`. -/
def strBeginsWith (s pre : String) : Bool :=
  charsBeginWith pre.data s.data

/-- Recursive walk `path.rglob('*')` filtered by `is_file` (lines 47-48
and 76-77): the regular files whose path lies strictly under the
directory `d`, in enumeration order. -/
def FS.filesUnder (fs : FS) (d : String) : List String :=
  (fs.files.map Prod.fst).filter (fun p => strBeginsWith p (d ++ "/"))

/-- In-memory snapshot: the path-string to digest mapping held in a
Python dict (insertion ordered, unique keys when built by dict ops). -/
abbrev Snapshot := List (String × String)

/-- Persisted state of `.file_hashes.yml`. -/
inductive StoreDoc
  /-- No `.file_hashes.yml` in the working directory. -/
  | absent
  /-- The document exists but is empty: `yaml.safe_load` returns `None`. -/
  | emptyDoc
  /-- The document holds a well-formed path-to-digest mapping. -/
  | mapping (m : Snapshot)
  /-- The document exists but the YAML parser raises on it. -/
  | malformed
deriving DecidableEq

/-- Unhandled Python exceptions the program can raise. -/
inductive Err
  /-- `OSError` while opening or reading the file at path `p`
  inside `calculate_file_hash`. -/
  | ioError (p : String)
  /-- `yaml.YAMLError` raised by `yaml.safe_load` on a malformed
  document. -/
  | parseError
deriving DecidableEq

/-- Confirmation message of `init` (line 52). -/
def initMsg : String := "Hashes stored successfully."

/-- Rejection message of `update` for a non-file path (line 87). -/
def updateErrMsg : String := "Error: Please provide a valid file path"

/-- Confirmation message of `update` (line 93). -/
def updateOkMsg : String := "Hash updated successfully."

/-- Store load (lines 20-25): if the document file exists, parse it and
replace a `None` result by the empty dict (`yaml.safe_load(f) or {}`,
line 24); a missing document yields the empty dict (line 25); a
malformed document propagates the parser error. -/
def load_stored_hashes : StoreDoc → Except Err Snapshot
  | .absent => .ok []
  | .emptyDoc => .ok []
  | .mapping m => .ok m
  | .malformed => .error .parseError

/-- Store save (lines 27-30): serialize the full mapping, overwriting
the document; `yaml.dump` of a dict always produces a well-formed
mapping document. -/
def save_hashes (m : Snapshot) : StoreDoc :=
  .mapping m

/-- Python dict assignment `d[k] = v`: replace the value at an existing
key in place, otherwise append the new entry at the end. -/
def dictInsert : Snapshot → String → String → Snapshot
  | [], k, v => [(k, v)]
  | e :: rest, k, v =>
    if e.1 = k then (k, v) :: dictInsert rest k v
    else e :: dictInsert rest k v

/-- Hasher `calculate_file_hash` (lines 12-18): open the file, feed its
bytes through the digest in 4096-byte chunks, return the hex digest; an
I/O error on open or read propagates as an exception. -/
def calculate_file_hash (A : DigestAlg) (fs : FS) (p : String) : Except Err String :=
  match fs.readFile p with
  | some b => .ok (hashBytes A b)
  | none => .error (.ioError p)

/-- Paths examined by a command: `init` (lines 44-49) and `check`
(lines 73-79) branch identically — the path itself when it is a regular
file, the recursive walk when it is a directory, nothing otherwise. -/
def scan (fs : FS) (path : String) : List String :=
  if fs.isFile path then [path]
  else if fs.isDir path then fs.filesUnder path
  else []

/-- Hashing loop of `init` (lines 44-49): starting from the empty dict
(line 42), insert `str(path) -> calculate_file_hash(path)` for each
examined file in order; the first I/O error aborts the whole loop. -/
def initLoop (A : DigestAlg) (fs : FS) (acc : Snapshot) :
    List String → Except Err Snapshot
  | [] => .ok acc
  | p :: rest =>
    match calculate_file_hash A fs p with
    | .error e => .error e
    | .ok h => initLoop A fs (dictInsert acc p h) rest

/-- Command `init` (lines 37-52): hash every examined file into a fresh
dict and overwrite the store with it.  The previous store content is
never read — the parameter records the state it would have had. -/
def init (A : DigestAlg) (fs : FS) (_prev : StoreDoc) (path : String) :
    Except Err (StoreDoc × List String) :=
  match initLoop A fs [] (scan fs path) with
  | .error e => .error e
  | .ok m => .ok (save_hashes m, [initMsg])

/-- Per-file status printed by `check` (lines 61-71). -/
inductive Status
  /-- No stored hash for this path (lines 63-65). -/
  | Unknown
  /-- Recomputed hash equals the stored one (lines 68-69). -/
  | Unmodified
  /-- Recomputed hash differs from the stored one (lines 70-71). -/
  | Modified
deriving DecidableEq

/-- Classifier `check_single_file` (lines 61-71): a path with no stored
entry is Unknown; otherwise the hash is recomputed fresh and compared
with the stored digest; hashing may raise an I/O error. -/
def check_single_file (A : DigestAlg) (fs : FS) (stored : Snapshot)
    (p : String) : Except Err Status :=
  match List.lookup p stored with
  | none => .ok .Unknown
  | some d =>
    match calculate_file_hash A fs p with
    | .error e => .error e
    | .ok h => .ok (if h = d then .Unmodified else .Modified)

/-- Checking loop of `check` (lines 73-79): classify each examined file
in order; an exception inside `check_single_file` aborts the loop. -/
def checkLoop (A : DigestAlg) (fs : FS) (stored : Snapshot) :
    List String → Except Err (List (String × Status))
  | [] => .ok []
  | p :: rest =>
    match check_single_file A fs stored p with
    | .error e => .error e
    | .ok s =>
      match checkLoop A fs stored rest with
      | .error e => .error e
      | .ok l => .ok ((p, s) :: l)

/-- Command `check` (lines 54-79): load the store (line 59), then
classify every examined file; the store is never written. -/
def check (A : DigestAlg) (fs : FS) (store : StoreDoc) (path : String) :
    Except Err (List (String × Status)) :=
  match load_stored_hashes store with
  | .error e => .error e
  | .ok stored => checkLoop A fs stored (scan fs path)

/-- Command `update` (lines 81-93): reject a non-file path with a
printed message and no store access (lines 86-88); otherwise load the
store, upsert the single recomputed entry, and persist (lines 90-93). -/
def update (A : DigestAlg) (fs : FS) (store : StoreDoc) (path : String) :
    Except Err (StoreDoc × List String) :=
  if fs.isFile path then
    match load_stored_hashes store with
    | .error e => .error e
    | .ok m =>
      match calculate_file_hash A fs path with
      | .error e => .error e
      | .ok h => .ok (save_hashes (dictInsert m path h), [updateOkMsg])
  else .ok (store, [updateErrMsg])

/-- Concrete digest algorithm for evaluating the model on examples: the
state collects the bytes fed so far and the rendering prints them.  Any
`DigestAlg` works in its place; the theorems hold for all of them. -/
def demoAlg : DigestAlg where
  St := Bytes
  initState := []
  updState := fun s c => s ++ c
  hexdigest := fun s => toString s

/-- Concrete filesystem for evaluating the model on examples: directory
`d` holds two readable files, directory `e` holds a readable file and an
unreadable one. -/
def demoFS : FS where
  files := [("d/a", some [1, 2]), ("d/b", some [3]), ("e/v", some [4]),
    ("e/u", none), ("f/c", some [1, 2])]
  dirs := ["d", "e"]

/-! Helper lemmas about the embedded operations. -/

/-- Dict assignment and lookup interact as expected: the assigned key
reads back the assigned value, every other key is untouched. -/
theorem lookup_dictInsert (m : Snapshot) (k v q : String) :
    List.lookup q (dictInsert m k v) = if q = k then some v else List.lookup q m := by
  induction m with
  | nil =>
    by_cases hqk : q = k
    · simp [dictInsert, List.lookup, hqk]
    · have hb : (q == k) = false := beq_eq_false_iff_ne.mpr hqk
      simp [dictInsert, List.lookup, hb, hqk]
  | cons e rest ih =>
    obtain ⟨a, w⟩ := e
    by_cases hek : a = k
    · subst hek
      by_cases hqa : q = a
      · subst hqa
        simp [dictInsert, List.lookup]
      · have hb : (q == a) = false := beq_eq_false_iff_ne.mpr hqa
        simp [dictInsert, List.lookup, hb, hqa, ih]
    · by_cases hqa : q = a
      · subst hqa
        have hqk : ¬ q = k := hek
        have hb : (q == k) = false := beq_eq_false_iff_ne.mpr hqk
        simp [dictInsert, hek, List.lookup, hqk]
      · have hb : (q == a) = false := beq_eq_false_iff_ne.mpr hqa
        simp [dictInsert, hek, List.lookup, hb, ih]

/-- A readable path is a regular file. -/
theorem readFile_isFile {fs : FS} {p : String} {b : Bytes}
    (h : fs.readFile p = some b) : fs.isFile p = true := by
  unfold FS.readFile at h
  unfold FS.isFile
  cases hl : fs.files.lookup p <;> simp [hl] at h ⊢

/-- Hashing a readable file succeeds with the digest of its content. -/
theorem calculate_ok {A : DigestAlg} {fs : FS} {p : String} {b : Bytes}
    (h : fs.readFile p = some b) :
    calculate_file_hash A fs p = .ok (hashBytes A b) := by
  simp [calculate_file_hash, h]

/-- Hashing an unreadable file raises the I/O error for that path. -/
theorem calculate_err {A : DigestAlg} {fs : FS} {p : String}
    (h : fs.readFile p = none) :
    calculate_file_hash A fs p = .error (.ioError p) := by
  simp [calculate_file_hash, h]

/-- Characterization of the `init` hashing loop when every examined file
is readable: it succeeds, the resulting dict maps every examined path to
the digest of its current content, and every other key keeps the value
it had in the accumulator. -/
theorem initLoop_ok (A : DigestAlg) (fs : FS) (l : List String)
    (hr : ∀ p ∈ l, (fs.readFile p).isSome) (acc : Snapshot) :
    ∃ m, initLoop A fs acc l = .ok m ∧
      ∀ q, List.lookup q m =
        if q ∈ l then (fs.readFile q).map (hashBytes A) else List.lookup q acc := by
  induction l generalizing acc with
  | nil => exact ⟨acc, rfl, fun q => by simp⟩
  | cons p rest ih =>
    obtain ⟨b, hb⟩ := Option.isSome_iff_exists.mp (hr p (List.mem_cons_self p rest))
    have hrest : ∀ q ∈ rest, (fs.readFile q).isSome :=
      fun q hq => hr q (List.mem_cons_of_mem p hq)
    obtain ⟨m, hm, hlook⟩ := ih hrest (dictInsert acc p (hashBytes A b))
    refine ⟨m, ?_, ?_⟩
    · simp [initLoop, calculate_ok hb, hm]
    · intro q
      rw [hlook q]
      by_cases hq : q ∈ rest
      · simp [hq]
      · by_cases hqp : q = p
        · subst hqp
          simp [hq, lookup_dictInsert, hb]
        · simp [hq, hqp, lookup_dictInsert]

/-- The checking loop maps cleanly over files that all classify as
`Unmodified`. -/
theorem checkLoop_all (A : DigestAlg) (fs : FS) (stored : Snapshot)
    (l : List String)
    (h : ∀ p ∈ l, check_single_file A fs stored p = .ok .Unmodified) :
    checkLoop A fs stored l = .ok (l.map fun p => (p, Status.Unmodified)) := by
  induction l with
  | nil => rfl
  | cons p rest ih =>
    have hp := h p (List.mem_cons_self p rest)
    have hrest := ih fun q hq => h q (List.mem_cons_of_mem p hq)
    simp [checkLoop, hp, hrest]

/-- The `init` hashing loop aborts with the I/O error of the first
unreadable file, whatever comes after it in the walk. -/
theorem initLoop_err (A : DigestAlg) (fs : FS) (l₁ : List String)
    (p : String) (l₂ : List String)
    (h₁ : ∀ q ∈ l₁, (fs.readFile q).isSome) (hp : fs.readFile p = none)
    (acc : Snapshot) :
    initLoop A fs acc (l₁ ++ p :: l₂) = .error (.ioError p) := by
  induction l₁ generalizing acc with
  | nil => simp [initLoop, calculate_err hp]
  | cons q rest ih =>
    obtain ⟨b, hb⟩ := Option.isSome_iff_exists.mp (h₁ q (List.mem_cons_self q rest))
    have hrest : ∀ r ∈ rest, (fs.readFile r).isSome :=
      fun r hr => h₁ r (List.mem_cons_of_mem q hr)
    simp [initLoop, calculate_ok hb, ih hrest]

/-- A readable file never makes `check_single_file` raise. -/
theorem check_single_file_ok (A : DigestAlg) {fs : FS} (stored : Snapshot)
    {q : String} {b : Bytes} (hb : fs.readFile q = some b) :
    ∃ s, check_single_file A fs stored q = .ok s := by
  cases hl : List.lookup q stored with
  | none => exact ⟨.Unknown, by simp [check_single_file, hl]⟩
  | some d =>
    exact ⟨if hashBytes A b = d then .Unmodified else .Modified,
      by simp [check_single_file, hl, calculate_ok hb]⟩

/-- The `check` loop aborts with the I/O error of the first unreadable
file that has a stored entry, whatever comes after it in the walk. -/
theorem checkLoop_err (A : DigestAlg) (fs : FS) (stored : Snapshot)
    (l₁ : List String) (p : String) (l₂ : List String)
    (h₁ : ∀ q ∈ l₁, (fs.readFile q).isSome) (hp : fs.readFile p = none)
    (hmem : (List.lookup p stored).isSome) :
    checkLoop A fs stored (l₁ ++ p :: l₂) = .error (.ioError p) := by
  induction l₁ with
  | nil =>
    obtain ⟨dp, hdp⟩ := Option.isSome_iff_exists.mp hmem
    simp [checkLoop, check_single_file, hdp, calculate_err hp]
  | cons q rest ih =>
    obtain ⟨b, hb⟩ := Option.isSome_iff_exists.mp (h₁ q (List.mem_cons_self q rest))
    obtain ⟨s, hs⟩ := check_single_file_ok A stored hb
    have hrest : ∀ r ∈ rest, (fs.readFile r).isSome :=
      fun r hr => h₁ r (List.mem_cons_of_mem q hr)
    simp [checkLoop, hs, ih hrest]

/-! Claim theorems. -/

/-- C1: for every regular file path examined by `check` whose content is
readable, `check_single_file` classifies it into exactly one of three
statuses from the loaded snapshot mapping: some status is always
produced, it is Unknown exactly when the path string has no stored
entry, Unmodified exactly when the freshly recomputed digest of the
current content equals the stored digest, and Modified exactly when the
recomputed digest differs from the stored digest. -/
theorem check_classifies_exactly_three (A : DigestAlg) (fs : FS)
    (stored : Snapshot) (p : String) (b : Bytes)
    (hread : fs.readFile p = some b) :
    (∃ s, check_single_file A fs stored p = .ok s)
    ∧ (check_single_file A fs stored p = .ok .Unknown ↔
        List.lookup p stored = none)
    ∧ (check_single_file A fs stored p = .ok .Unmodified ↔
        ∃ d, List.lookup p stored = some d ∧ hashBytes A b = d)
    ∧ (check_single_file A fs stored p = .ok .Modified ↔
        ∃ d, List.lookup p stored = some d ∧ hashBytes A b ≠ d) := by
  cases hl : List.lookup p stored with
  | none => simp [check_single_file, hl]
  | some d =>
    by_cases hd : hashBytes A b = d
    · simp [check_single_file, hl, calculate_ok hread, hd]
    · simp [check_single_file, hl, calculate_ok hread, hd]

/-- C2: whatever the prior snapshot was, `init` overwrites the persisted
mapping with exactly one entry per examined regular file (the path
itself when it is a regular file, otherwise the regular files found by
the walk), keyed by path string with the digest of current content, and
with no other entries: every key outside the scan reads back `none`. -/
theorem init_replaces_snapshot (A : DigestAlg) (fs : FS) (prev : StoreDoc)
    (path : String) (hr : ∀ p ∈ scan fs path, (fs.readFile p).isSome) :
    ∃ m, init A fs prev path = .ok (.mapping m, [initMsg]) ∧
      ∀ q, List.lookup q m =
        if q ∈ scan fs path then (fs.readFile q).map (hashBytes A)
        else none := by
  obtain ⟨m, hm, hlook⟩ := initLoop_ok A fs (scan fs path) hr []
  refine ⟨m, by simp [init, hm, save_hashes], fun q => ?_⟩
  simpa using hlook q

/-- C3: `update` on a readable regular file changes at most the entry
keyed by that path string, setting it to the digest of the current
content; the stored digest of every other key is unchanged. -/
theorem update_frames_other_keys (A : DigestAlg) (fs : FS)
    (store : StoreDoc) (path : String) (b : Bytes)
    (hread : fs.readFile path = some b)
    (m : Snapshot) (hload : load_stored_hashes store = .ok m) :
    ∃ m', update A fs store path = .ok (.mapping m', [updateOkMsg]) ∧
      List.lookup path m' = some (hashBytes A b) ∧
      ∀ q, q ≠ path → List.lookup q m' = List.lookup q m := by
  have hf := readFile_isFile hread
  refine ⟨dictInsert m path (hashBytes A b), ?_, ?_, ?_⟩
  · simp [update, hf, hload, calculate_ok hread, save_hashes]
  · simp [lookup_dictInsert]
  · intro q hq
    simp [lookup_dictInsert, hq]

/-- C4: saving any snapshot mapping and loading it back reproduces the
same mapping (serialization round-trip law). -/
theorem save_load_roundtrip (m : Snapshot) :
    load_stored_hashes (save_hashes m) = .ok m := rfl

/-- C5: loading returns the empty mapping, not an error, when the
persisted document is absent, likewise when the document is present but
empty, and signals a parse error when the document is malformed. -/
theorem load_absent_empty_or_malformed :
    load_stored_hashes .absent = .ok []
    ∧ load_stored_hashes .emptyDoc = .ok []
    ∧ load_stored_hashes .malformed = .error .parseError :=
  ⟨rfl, rfl, rfl⟩

/-- C6: `update` on a path that is not a regular file returns normally
(exit status 0, no exception) having printed the error message and
leaving the persisted snapshot exactly as it was — the store is not even
loaded, so this holds for every store state including a malformed one. -/
theorem update_rejects_nonfile (A : DigestAlg) (fs : FS)
    (store : StoreDoc) (path : String) (h : fs.isFile path = false) :
    update A fs store path = .ok (store, [updateErrMsg]) := by
  simp [update, h]

/-- C7: the hasher is deterministic — two files (in possibly different
filesystem states) whose byte contents are identical hash to the
identical digest string, namely the digest of those bytes; the digest
depends only on the byte content read. -/
theorem hash_deterministic (A : DigestAlg) (fs₁ fs₂ : FS)
    (p₁ p₂ : String) (b : Bytes)
    (h₁ : fs₁.readFile p₁ = some b) (h₂ : fs₂.readFile p₂ = some b) :
    calculate_file_hash A fs₁ p₁ = .ok (hashBytes A b)
    ∧ calculate_file_hash A fs₁ p₁ = calculate_file_hash A fs₂ p₂ := by
  rw [calculate_ok h₁, calculate_ok h₂]
  exact ⟨rfl, rfl⟩

/-- C8: running `init` on a directory and then `check` on the same
directory with the files unchanged in between reports Unmodified for
every regular file found under it. -/
theorem init_then_check_unmodified (A : DigestAlg) (fs : FS)
    (prev : StoreDoc) (d : String)
    (hd : fs.isDir d = true) (hnf : fs.isFile d = false)
    (hr : ∀ p ∈ fs.filesUnder d, (fs.readFile p).isSome) :
    ∃ st msgs, init A fs prev d = .ok (st, msgs) ∧
      check A fs st d =
        .ok ((fs.filesUnder d).map fun p => (p, Status.Unmodified)) := by
  have hscan : scan fs d = fs.filesUnder d := by simp [scan, hnf, hd]
  obtain ⟨m, hm, hlook⟩ :=
    initLoop_ok A fs (scan fs d) (by rw [hscan]; exact hr) []
  refine ⟨save_hashes m, [initMsg], by simp [init, hm], ?_⟩
  have hall : ∀ p ∈ fs.filesUnder d,
      check_single_file A fs m p = .ok .Unmodified := by
    intro p hp
    obtain ⟨b, hb⟩ := Option.isSome_iff_exists.mp (hr p hp)
    have hlp : List.lookup p m = some (hashBytes A b) := by
      rw [hlook p, hscan]
      simp [hp, hb]
    simp [check_single_file, hlp, calculate_ok hb]
  simp [check, save_hashes, load_stored_hashes, hscan,
    checkLoop_all A fs m _ hall]

/-- C9: an I/O error while hashing a single file during a walk is fatal
to the whole command rather than isolated: `init` aborts at the first
unreadable file with the error propagated (so the store is never
written), and `check` likewise aborts there when the unreadable file has
a stored entry and therefore gets hashed. -/
theorem walk_hash_error_fatal (A : DigestAlg) (fs : FS)
    (prev store : StoreDoc) (stored : Snapshot) (d p : String)
    (l₁ l₂ : List String)
    (hscan : scan fs d = l₁ ++ p :: l₂)
    (h₁ : ∀ q ∈ l₁, (fs.readFile q).isSome)
    (hp : fs.readFile p = none)
    (hload : load_stored_hashes store = .ok stored)
    (hmem : (List.lookup p stored).isSome) :
    init A fs prev d = .error (.ioError p)
    ∧ check A fs store d = .error (.ioError p) := by
  constructor
  · simp [init, hscan, initLoop_err A fs l₁ p l₂ h₁ hp]
  · simp [check, hload, hscan, checkLoop_err A fs stored l₁ p l₂ h₁ hp hmem]

/-- C10: `init` on a path that is neither an existing regular file nor a
directory does not fail — it overwrites the persisted snapshot with the
empty mapping, erasing every previously stored entry, and still produces
the success confirmation message. -/
theorem init_missing_path_clears_store (A : DigestAlg) (fs : FS)
    (prev : StoreDoc) (path : String)
    (hf : fs.isFile path = false) (hd : fs.isDir path = false) :
    init A fs prev path = .ok (.mapping [], [initMsg]) := by
  simp [init, scan, hf, hd, initLoop, save_hashes]

/-! Concrete evaluations of the claim theorems on the demo fixtures. -/

/-- C1 evaluated: path `d/a` of the demo filesystem against a snapshot
that stores the digest string `x` for it. -/
theorem check_classifies_exactly_three_witness :
    demoFS.readFile "d/a" = some [1, 2]
    ∧ ((∃ s, check_single_file demoAlg demoFS [("d/a", "x")] "d/a" = .ok s)
      ∧ (check_single_file demoAlg demoFS [("d/a", "x")] "d/a" = .ok .Unknown ↔
          List.lookup "d/a" [("d/a", "x")] = none)
      ∧ (check_single_file demoAlg demoFS [("d/a", "x")] "d/a" = .ok .Unmodified ↔
          ∃ d, List.lookup "d/a" [("d/a", "x")] = some d ∧ hashBytes demoAlg [1, 2] = d)
      ∧ (check_single_file demoAlg demoFS [("d/a", "x")] "d/a" = .ok .Modified ↔
          ∃ d, List.lookup "d/a" [("d/a", "x")] = some d ∧ hashBytes demoAlg [1, 2] ≠ d)) :=
  ⟨rfl, check_classifies_exactly_three demoAlg demoFS [("d/a", "x")] "d/a" [1, 2] rfl⟩

/-- C2 evaluated: `init` on directory `d` of the demo filesystem over a
prior store holding an unrelated entry. -/
theorem init_replaces_snapshot_witness :
    (∀ p ∈ scan demoFS "d", (demoFS.readFile p).isSome)
    ∧ (∃ m, init demoAlg demoFS (.mapping [("old", "z")]) "d" =
          .ok (.mapping m, [initMsg]) ∧
        ∀ q, List.lookup q m =
          if q ∈ scan demoFS "d" then (demoFS.readFile q).map (hashBytes demoAlg)
          else none) :=
  ⟨by decide,
    init_replaces_snapshot demoAlg demoFS (.mapping [("old", "z")]) "d" (by decide)⟩

/-- C3 evaluated: `update` on file `d/a` of the demo filesystem over a
store holding entries for `d/a` and `d/b`. -/
theorem update_frames_other_keys_witness :
    demoFS.readFile "d/a" = some [1, 2]
    ∧ load_stored_hashes (.mapping [("d/a", "old"), ("d/b", "y")]) =
        .ok [("d/a", "old"), ("d/b", "y")]
    ∧ (∃ m', update demoAlg demoFS (.mapping [("d/a", "old"), ("d/b", "y")]) "d/a" =
          .ok (.mapping m', [updateOkMsg]) ∧
        List.lookup "d/a" m' = some (hashBytes demoAlg [1, 2]) ∧
        ∀ q, q ≠ "d/a" →
          List.lookup q m' = List.lookup q [("d/a", "old"), ("d/b", "y")]) :=
  ⟨rfl, rfl,
    update_frames_other_keys demoAlg demoFS (.mapping [("d/a", "old"), ("d/b", "y")])
      "d/a" [1, 2] rfl [("d/a", "old"), ("d/b", "y")] rfl⟩

/-- C6 evaluated: `update` on the directory path `d` of the demo
filesystem leaves the store untouched and reports the error message. -/
theorem update_rejects_nonfile_witness :
    demoFS.isFile "d" = false
    ∧ update demoAlg demoFS (.mapping [("d/a", "x")]) "d" =
        .ok (.mapping [("d/a", "x")], [updateErrMsg]) :=
  ⟨rfl, update_rejects_nonfile demoAlg demoFS (.mapping [("d/a", "x")]) "d" rfl⟩

/-- C7 evaluated: the demo files `d/a` and `f/c` hold identical bytes
and hash to the identical digest. -/
theorem hash_deterministic_witness :
    demoFS.readFile "d/a" = some [1, 2]
    ∧ demoFS.readFile "f/c" = some [1, 2]
    ∧ (calculate_file_hash demoAlg demoFS "d/a" = .ok (hashBytes demoAlg [1, 2])
      ∧ calculate_file_hash demoAlg demoFS "d/a" =
          calculate_file_hash demoAlg demoFS "f/c") :=
  ⟨rfl, rfl, hash_deterministic demoAlg demoFS demoFS "d/a" "f/c" [1, 2] rfl rfl⟩

/-- C8 evaluated: `init` then `check` on directory `d` of the demo
filesystem reports Unmodified for both files under it. -/
theorem init_then_check_unmodified_witness :
    demoFS.isDir "d" = true
    ∧ demoFS.isFile "d" = false
    ∧ (∀ p ∈ demoFS.filesUnder "d", (demoFS.readFile p).isSome)
    ∧ (∃ st msgs, init demoAlg demoFS .absent "d" = .ok (st, msgs) ∧
        check demoAlg demoFS st "d" =
          .ok ((demoFS.filesUnder "d").map fun p => (p, Status.Unmodified))) :=
  ⟨rfl, rfl, by decide,
    init_then_check_unmodified demoAlg demoFS .absent "d" rfl rfl (by decide)⟩

/-- C9 evaluated: directory `e` of the demo filesystem holds the
readable `e/v` followed by the unreadable `e/u`, which has a stored
entry; both `init` and `check` abort with the I/O error for `e/u`. -/
theorem walk_hash_error_fatal_witness :
    scan demoFS "e" = ["e/v"] ++ "e/u" :: []
    ∧ (∀ q ∈ (["e/v"] : List String), (demoFS.readFile q).isSome)
    ∧ demoFS.readFile "e/u" = none
    ∧ load_stored_hashes (.mapping [("e/u", "h")]) = .ok [("e/u", "h")]
    ∧ (List.lookup "e/u" [("e/u", "h")]).isSome
    ∧ (init demoAlg demoFS .absent "e" = .error (.ioError "e/u")
      ∧ check demoAlg demoFS (.mapping [("e/u", "h")]) "e" =
          .error (.ioError "e/u")) :=
  ⟨by decide, by decide, rfl, rfl, rfl,
    walk_hash_error_fatal demoAlg demoFS .absent (.mapping [("e/u", "h")])
      [("e/u", "h")] "e" "e/u" ["e/v"] [] (by decide) (by decide) rfl rfl rfl⟩

/-- C10 evaluated: `init` on the nonexistent path `nope` of the demo
filesystem wipes a nonempty prior store and reports success. -/
theorem init_missing_path_clears_store_witness :
    demoFS.isFile "nope" = false
    ∧ demoFS.isDir "nope" = false
    ∧ init demoAlg demoFS (.mapping [("old", "z")]) "nope" =
        .ok (.mapping [], [initMsg]) :=
  ⟨rfl, rfl,
    init_missing_path_clears_store demoAlg demoFS (.mapping [("old", "z")]) "nope" rfl rfl⟩

end IntegrityChecker
